import Mathlib

set_option linter.all false

/- Shallow embedding of the tiny_rpc wire codec: the framing helpers of
   codec/io.go and the client and server codecs. Bytes are natural numbers
   below 256 and byte streams are lists of bytes; Go's uint64/uint32
   arithmetic is modelled with explicit reductions modulo 2 ^ 64 / 2 ^ 32
   where the source computes in those types. -/

/-- putUvarint models binary.PutUvarint from Go's encoding/binary: the LEB128
encoding of x, least significant 7-bit group first, high bit set on every
byte but the last. Go's byte(x)|0x80 is x % 256 ||| 0x80; in the final-byte
branch x < 0x80, so byte(x) = x. x >>= 7 is x / 128. -/
def putUvarint (x : Nat) : List Nat :=
  if h : x < 0x80 then [x]
  else (x % 256 ||| 0x80) :: putUvarint (x / 128)
termination_by x
decreasing_by exact Nat.div_lt_self (by omega) (by omega)

/-- readUvarintLoop models the loop of binary.ReadUvarint from encoding/binary:
x is the accumulator, s the shift, and fuel is MaxVarintLen64 - i for the Go
loop index i, so the Go overflow test i == MaxVarintLen64-1 is fuel = 1,
which is fuel = 0 after the pattern peels one. The first clause is the
errOverflow return after the loop; an exhausted stream is the ReadByte error
path. Go accumulates in uint64, hence the reductions modulo 2 ^ 64. -/
def readUvarintLoop : Nat → Nat → Nat → List Nat → Option (Nat × List Nat)
  | _, _, 0, _ => none
  | x, s, fuel + 1, stream =>
    match stream with
    | [] => none
    | b :: rest =>
      if b < 0x80 then
        if fuel = 0 ∧ 1 < b then none
        else some ((x ||| b <<< s) % 2 ^ 64, rest)
      else readUvarintLoop ((x ||| (b % 0x80) <<< s) % 2 ^ 64) (s + 7) fuel rest

/-- readUvarint models binary.ReadUvarint (MaxVarintLen64 = 10), consuming
bytes from the stream and returning the decoded value and the rest. -/
def readUvarint (stream : List Nat) : Option (Nat × List Nat) :=
  readUvarintLoop 0 0 10 stream

/-- sendFrame from codec/io.go over an ideal stream: the bytes put on the
wire. It writes PutUvarint(len(data)) and then, when data is nonempty, the
raw bytes of data (the uint64(len(data)) cast is exact for a Go slice). -/
def sendFrame (data : List Nat) : List Nat :=
  if data.length = 0 then putUvarint 0
  else putUvarint data.length ++ data

/-- The read helper of codec/io.go over an ideal stream: filling a buffer of
n bytes consumes exactly the first n bytes of the stream; if the stream ends
first the transport fails. -/
def readStream (n : Nat) (s : List Nat) : Option (List Nat × List Nat) :=
  if n ≤ s.length then some (s.take n, s.drop n) else none

/-- recvFrame from codec/io.go: read a uvarint size and then, when size is
not 0, exactly size raw bytes; a zero size yields the empty buffer. -/
def recvFrame (s : List Nat) : Option (List Nat × List Nat) :=
  match readUvarint s with
  | none => none
  | some (size, rest) =>
    if size ≠ 0 then
      match readStream size rest with
      | none => none
      | some (data, rest2) => some (data, rest2)
    else some ([], rest)

/-- Classification of the error of one underlying Write or Read call, as the
type assertion err.(net.Error) in codec/io.go sees it: err == nil, err a
net.Error, or any other non-nil error. -/
inductive GoErr where
  | nil
  | net
  | other
  deriving DecidableEq

/-- The write helper of codec/io.go run against a script of underlying Write
results: entry (n, e) is one w.Write call accepting n bytes with error class
e. Faithful to the source: the loop returns err - which may be nil, that is,
success - whenever err is not a net.Error, before index += n runs, and keeps
looping on every net.Error. An exhausted script (result none) marks a run
that is still looping when the script ends. -/
def writeGo (dataLen : Nat) : Nat → List (Nat × GoErr) → Option (GoErr × Nat)
  | index, [] => if dataLen ≤ index then some (.nil, index) else none
  | index, (n, e) :: rest =>
    if dataLen ≤ index then some (.nil, index)
    else if e = .net then writeGo dataLen (index + n) rest
    else some (e, index)

/-- The read helper of codec/io.go against a script of underlying Read
results: the loop continues on a nil error or a net.Error (adding n to
index) and returns only an error that is non-nil and not a net.Error. -/
def readGo (dataLen : Nat) : Nat → List (Nat × GoErr) → Option (GoErr × Nat)
  | index, [] => if dataLen ≤ index then some (.nil, index) else none
  | index, (n, e) :: rest =>
    if dataLen ≤ index then some (.nil, index)
    else if e = .other then some (e, index)
    else readGo dataLen (index + n) rest

/-- One bit step of CRC-32/IEEE (reflected polynomial 0xEDB88320), as in the
IEEE table of Go's hash/crc32. -/
def crc32Round (c : Nat) : Nat :=
  if c % 2 = 1 then (c / 2) ^^^ 0xEDB88320 else c / 2

/-- k bit steps of CRC-32/IEEE. -/
def crc32Bits : Nat → Nat → Nat
  | 0, c => c
  | k + 1, c => crc32Bits k (crc32Round c)

/-- crc32.ChecksumIEEE from Go's hash/crc32: initial value 0xFFFFFFFF, eight
bit steps per byte, final complement. -/
def crc32 (data : List Nat) : Nat :=
  (data.foldl (fun c b => crc32Bits 8 (c ^^^ (b % 256))) 0xFFFFFFFF) ^^^ 0xFFFFFFFF

/-- Go map lookup, on an association-list model of a Go map. -/
def mapLookup {α : Type} (m : List (Nat × α)) (k : Nat) : Option α :=
  (m.find? (fun p => p.1 == k)).map Prod.snd

/-- Go map delete. -/
def mapErase {α : Type} (m : List (Nat × α)) (k : Nat) : List (Nat × α) :=
  m.filter (fun p => p.1 != k)

/-- Go map insert, overwriting any previous binding of the key. -/
def mapInsert {α : Type} (m : List (Nat × α)) (k : Nat) (v : α) : List (Nat × α) :=
  (k, v) :: mapErase m k

/-- Modelled from the spec: the header package is not under src. RequestHeader
carries id (u64), method (a byte string), request_len (u32), compress_type
(u16) and checksum (u32, CRC-32/IEEE over the compressed body). -/
structure RequestHeader where
  ID : Nat
  Method : List Nat
  RequestLen : Nat
  CompressType : Nat
  Checksum : Nat
  deriving DecidableEq

/-- Modelled from the spec: ResponseHeader carries id (u64, echoing the
request id), error (a byte string, empty means success), response_len (u32),
compress_type (u16) and checksum (u32). -/
structure ResponseHeader where
  ID : Nat
  Error : List Nat
  ResponseLen : Nat
  CompressType : Nat
  Checksum : Nat
  deriving DecidableEq

/-- Little-endian encoding of n in w bytes (spec: integers little-endian). -/
def uintLE : Nat → Nat → List Nat
  | 0, _ => []
  | w + 1, n => n % 256 :: uintLE w (n / 256)

/-- Value of a little-endian byte string. -/
def leVal (bs : List Nat) : Nat :=
  bs.foldr (fun b acc => b % 256 + 256 * acc) 0

/-- Modelled from the spec: RequestHeader.Marshal uses the recommended layout
id:u64 LE, method_len:u32 LE, method bytes, request_len:u32 LE,
compress_type:u16 LE, checksum:u32 LE. -/
def RequestHeader.Marshal (h : RequestHeader) : List Nat :=
  uintLE 8 h.ID ++ uintLE 4 h.Method.length ++ h.Method ++
    uintLE 4 h.RequestLen ++ uintLE 2 h.CompressType ++ uintLE 4 h.Checksum

/-- Modelled from the spec: RequestHeader.Unmarshal decodes the layout above,
failing on a buffer that does not parse exactly. -/
def RequestHeader.Unmarshal (d : List Nat) : Option RequestHeader :=
  if 12 ≤ d.length then
    let mlen := leVal ((d.drop 8).take 4)
    let r := (d.drop 8).drop 4
    if r.length = mlen + 10 then
      some { ID := leVal (d.take 8), Method := r.take mlen,
             RequestLen := leVal ((r.drop mlen).take 4),
             CompressType := leVal (((r.drop mlen).drop 4).take 2),
             Checksum := leVal ((((r.drop mlen).drop 4).drop 2).take 4) }
    else none
  else none

/-- Modelled from the spec: ResponseHeader.Marshal, layout id:u64 LE,
error_len:u32 LE, error bytes, response_len:u32 LE, compress_type:u16 LE,
checksum:u32 LE. -/
def ResponseHeader.Marshal (h : ResponseHeader) : List Nat :=
  uintLE 8 h.ID ++ uintLE 4 h.Error.length ++ h.Error ++
    uintLE 4 h.ResponseLen ++ uintLE 2 h.CompressType ++ uintLE 4 h.Checksum

/-- Modelled from the spec: ResponseHeader.Unmarshal decodes the layout
above, failing on a buffer that does not parse exactly. -/
def ResponseHeader.Unmarshal (d : List Nat) : Option ResponseHeader :=
  if 12 ≤ d.length then
    let elen := leVal ((d.drop 8).take 4)
    let r := (d.drop 8).drop 4
    if r.length = elen + 10 then
      some { ID := leVal (d.take 8), Error := r.take elen,
             ResponseLen := leVal ((r.drop elen).take 4),
             CompressType := leVal (((r.drop elen).drop 4).take 2),
             Checksum := leVal ((((r.drop elen).drop 4).drop 2).take 4) }
    else none
  else none

/-- Modelled from the spec: a compressor offers symmetric Zip and Unzip over
byte strings; Go returns ([]byte, error), so either direction may fail. -/
structure Compressor where
  Zip : List Nat → Option (List Nat)
  Unzip : List Nat → Option (List Nat)

/-- Modelled from the spec: the process-wide read-only registry
compressor.Compressors from u16 tags to compressors, passed to the codec
operations as a parameter. -/
abbrev Registry := Nat → Option Compressor

/-- Modelled from the spec: a serializer marshals a user value to bytes and
unmarshals bytes back to a value; either direction may fail. -/
structure Serializer (Val : Type) where
  Marshal : Val → Option (List Nat)
  Unmarshal : List Nat → Option Val

/-- The error values the codecs report to the dispatcher. Transport covers
underlying stream failures, HeaderDecode a failed header Unmarshal,
CompressorError and SerializerError failures inside Zip/Unzip and
Marshal/Unmarshal, and Panic the Go panic from invoking Unzip on the nil
interface a missing registry entry yields in clientCodec.ReadResponseBody. -/
inductive Err where
  | NotFoundCompressor
  | UnexpectedChecksum
  | CompressorTypeMismatch
  | InvalidSequence
  | Transport
  | HeaderDecode
  | SerializerError
  | CompressorError
  | Panic
  deriving DecidableEq

/-- clientCodec state: configured compress type, the pending map from seq to
service method, and the response-header scratch c.response. -/
structure ClientState where
  compressor : Nat
  pending : List (Nat × List Nat)
  response : ResponseHeader
  deriving DecidableEq

/-- reqCtx from the server codec: the request id and compress type remembered
for a local sequence number. -/
structure ReqCtx where
  requestId : Nat
  compressType : Nat
  deriving DecidableEq

/-- serverCodec state: the seq counter, the pending map from local seq to
reqCtx, and the request-header scratch s.request. -/
structure ServerState where
  seq : Nat
  pending : List (Nat × ReqCtx)
  request : RequestHeader
  deriving DecidableEq

/-- The rpc.Request fields the server codec fills. -/
structure RpcRequest where
  ServiceMethod : List Nat
  Seq : Nat
  deriving DecidableEq

/-- The rpc.Response fields the client codec fills. -/
structure RpcResponse where
  Seq : Nat
  Error : List Nat
  ServiceMethod : List Nat
  deriving DecidableEq

/-- clientCodec.WriteRequest: insert seq to method into pending, check the
configured compressor is registered, marshal the argument, zip it, build the
request header, and put the header frame followed by the raw compressed body
on the wire (the bufio flush at the end makes them visible). Returns the new
state, the bytes put on the wire, and the error if any. -/
def clientCodec.WriteRequest {Val : Type} (reg : Registry) (S : Serializer Val)
    (c : ClientState) (seq : Nat) (method : List Nat) (param : Val) :
    ClientState × List Nat × Option Err :=
  let c := { c with pending := mapInsert c.pending seq method }
  match reg c.compressor with
  | none => (c, [], some .NotFoundCompressor)
  | some comp =>
    match S.Marshal param with
    | none => (c, [], some .SerializerError)
    | some reqBody =>
      match comp.Zip reqBody with
      | none => (c, [], some .CompressorError)
      | some cbody =>
        let h : RequestHeader :=
          { ID := seq, Method := method, RequestLen := cbody.length % 2 ^ 32,
            CompressType := c.compressor, Checksum := crc32 cbody }
        (c, sendFrame h.Marshal ++ cbody, none)

/-- clientCodec.ReadResponseHeader: read a frame, decode it into c.response,
take seq and error from the header, and resolve and delete the pending entry
for that seq. A missing key yields the empty string, as a Go map read does,
and the function still succeeds. -/
def clientCodec.ReadResponseHeader (c : ClientState) (stream : List Nat) :
    Except Err (RpcResponse × ClientState × List Nat) :=
  match recvFrame stream with
  | none => .error .Transport
  | some (data, rest) =>
    match ResponseHeader.Unmarshal data with
    | none => .error .HeaderDecode
    | some rh =>
      .ok ({ Seq := rh.ID, Error := rh.Error,
             ServiceMethod := (mapLookup c.pending rh.ID).getD [] },
           { c with response := rh, pending := mapErase c.pending rh.ID }, rest)

/-- clientCodec.ReadResponseBody: with a nil target, discard ResponseLen
bytes when that length is nonzero; with a target, read ResponseLen bytes,
verify the checksum when the header checksum is nonzero, require the header
compress type to equal the configured one, then unzip and unmarshal. Returns
the result together with the rest of the stream. -/
def clientCodec.ReadResponseBody {Val : Type} (reg : Registry) (S : Serializer Val)
    (c : ClientState) (hasTarget : Bool) (stream : List Nat) :
    Except Err (Option Val) × List Nat :=
  if hasTarget = false then
    if c.response.ResponseLen ≠ 0 then
      match readStream c.response.ResponseLen stream with
      | none => (.error .Transport, [])
      | some (_, rest) => (.ok none, rest)
    else (.ok none, stream)
  else
    match readStream c.response.ResponseLen stream with
    | none => (.error .Transport, [])
    | some (respBody, rest) =>
      if c.response.Checksum ≠ 0 ∧ crc32 respBody ≠ c.response.Checksum then
        (.error .UnexpectedChecksum, rest)
      else if c.response.CompressType ≠ c.compressor then
        (.error .CompressorTypeMismatch, rest)
      else
        match reg c.response.CompressType with
        | none => (.error .Panic, rest)
        | some comp =>
          match comp.Unzip respBody with
          | none => (.error .CompressorError, rest)
          | some resp =>
            match S.Unmarshal resp with
            | none => (.error .SerializerError, rest)
            | some v => (.ok (some v), rest)

/-- serverCodec.ReadRequestHeader: read a frame, decode it into s.request,
increment the u64 seq counter, bind the new local seq to the request id and
compress type in pending, and report the method and the local seq. -/
def serverCodec.ReadRequestHeader (s : ServerState) (stream : List Nat) :
    Except Err (RpcRequest × ServerState × List Nat) :=
  match recvFrame stream with
  | none => .error .Transport
  | some (data, rest) =>
    match RequestHeader.Unmarshal data with
    | none => .error .HeaderDecode
    | some rh =>
      let seq := (s.seq + 1) % 2 ^ 64
      .ok ({ ServiceMethod := rh.Method, Seq := seq },
           { seq := seq,
             pending := mapInsert s.pending seq
               { requestId := rh.ID, compressType := rh.CompressType },
             request := rh }, rest)

/-- serverCodec.ReadRequestBody: with a nil target, discard RequestLen bytes
when that length is nonzero; with a target, read RequestLen bytes, verify
the checksum when nonzero, look the header compress type up in the registry
(NotFoundCompressor when absent), then unzip and unmarshal. Returns the
result together with the rest of the stream. -/
def serverCodec.ReadRequestBody {Val : Type} (reg : Registry) (S : Serializer Val)
    (s : ServerState) (hasTarget : Bool) (stream : List Nat) :
    Except Err (Option Val) × List Nat :=
  if hasTarget = false then
    if s.request.RequestLen ≠ 0 then
      match readStream s.request.RequestLen stream with
      | none => (.error .Transport, [])
      | some (_, rest) => (.ok none, rest)
    else (.ok none, stream)
  else
    match readStream s.request.RequestLen stream with
    | none => (.error .Transport, [])
    | some (reqBody, rest) =>
      if s.request.Checksum ≠ 0 ∧ crc32 reqBody ≠ s.request.Checksum then
        (.error .UnexpectedChecksum, rest)
      else
        match reg s.request.CompressType with
        | none => (.error .NotFoundCompressor, rest)
        | some comp =>
          match comp.Unzip reqBody with
          | none => (.error .CompressorError, rest)
          | some req =>
            match S.Unmarshal req with
            | none => (.error .SerializerError, rest)
            | some v => (.ok (some v), rest)

/-- serverCodec.WriteResponse: take and delete the pending entry for the
response seq (InvalidSequence when absent); a non-empty response error
discards the value; check the remembered compress type is registered;
marshal the value (a nil value gives the empty body), zip it, build the
response header from the remembered request id and compress type, and put
the header frame followed by the raw compressed body on the wire. -/
def serverCodec.WriteResponse {Val : Type} (reg : Registry) (S : Serializer Val)
    (s : ServerState) (respSeq : Nat) (respError : List Nat) (param : Option Val) :
    ServerState × List Nat × Option Err :=
  match mapLookup s.pending respSeq with
  | none => (s, [], some .InvalidSequence)
  | some ctx =>
    let s := { s with pending := mapErase s.pending respSeq }
    let param := if respError ≠ [] then none else param
    match reg ctx.compressType with
    | none => (s, [], some .NotFoundCompressor)
    | some comp =>
      match (match param with | none => some [] | some v => S.Marshal v) with
      | none => (s, [], some .SerializerError)
      | some respBody =>
        match comp.Zip respBody with
        | none => (s, [], some .CompressorError)
        | some cbody =>
          let h : ResponseHeader :=
            { ID := ctx.requestId, Error := respError,
              ResponseLen := cbody.length % 2 ^ 32,
              CompressType := ctx.compressType, Checksum := crc32 cbody }
          (s, sendFrame h.Marshal ++ cbody, none)

/-- Iterate serverCodec.ReadRequestHeader on one connection, collecting the
assigned local sequence numbers in order. -/
def runHeaders : ServerState → List Nat → Nat → Option (List Nat × ServerState × List Nat)
  | s, stream, 0 => some ([], s, stream)
  | s, stream, n + 1 =>
    match serverCodec.ReadRequestHeader s stream with
    | .error _ => none
    | .ok (req, s2, rest) =>
      match runHeaders s2 rest n with
      | none => none
      | some (seqs, s3, rest2) => some (req.Seq :: seqs, s3, rest2)

/-- Oring a value shifted past the width of the accumulator is addition. -/
lemma lor_shift {acc s : Nat} (b : Nat) (h : acc < 2 ^ s) :
    acc ||| b <<< s = acc + b * 2 ^ s := by
  rw [Nat.shiftLeft_eq, Nat.lor_comm, Nat.mul_comm b (2 ^ s), ← Nat.mul_add_lt_is_or h b]
  omega

/-- The byte Go writes for a continuation group: byte(x) with the high bit
set equals the low 7-bit group plus 128. -/
lemma byteOr (x : Nat) : x % 256 ||| 128 = x % 128 + 128 := by
  have hm : x % 128 < 2 ^ 7 := by
    have h1 : x % 128 < 128 := Nat.mod_lt x (by norm_num)
    norm_num
    exact h1
  have hadd : x % 128 ||| 128 = x % 128 + 128 := by
    have h2 := lor_shift (b := 1) hm
    norm_num at h2
    exact h2
  have h : x % 256 = x % 128 + 128 * (x / 128 % 2) := by
    have h2 : (256 : Nat) = 128 * 2 := by norm_num
    rw [h2, Nat.mod_mul]
  rcases Nat.mod_two_eq_zero_or_one (x / 128) with h2 | h2 <;> rw [h, h2]
  · simpa using hadd
  · rw [Nat.mul_one, ← hadd, Nat.lor_assoc, Nat.or_self]

/-- Main decoding invariant: running the ReadUvarint loop with accumulator
acc, shift s = 7 * (10 - fuel) and the encoding of x at the head of the
stream yields acc + x * 2 ^ s and consumes exactly the encoding. -/
lemma readUvarintLoop_putUvarint (x : Nat) : ∀ fuel acc s rest, 1 ≤ fuel → fuel ≤ 10 →
    s = 7 * (10 - fuel) → acc < 2 ^ s → x * 2 ^ s < 2 ^ 64 →
    readUvarintLoop acc s fuel (putUvarint x ++ rest) = some (acc + x * 2 ^ s, rest) := by
  induction x using Nat.strong_induction_on with
  | _ x ih =>
    intro fuel acc s rest hf hf10 hs hacc hx
    obtain ⟨f, rfl⟩ : ∃ f, fuel = f + 1 := ⟨fuel - 1, by omega⟩
    by_cases hx0 : x < 0x80
    · rw [putUvarint, dif_pos hx0]
      have hno : ¬(f = 0 ∧ 1 < x) := by
        rintro ⟨rfl, hx1⟩
        have hs63 : s = 63 := by omega
        subst hs63
        have h2 : 2 * 2 ^ 63 ≤ x * 2 ^ 63 := Nat.mul_le_mul_right _ (by omega)
        have h3 : (2 : Nat) * 2 ^ 63 = 2 ^ 64 := by norm_num [pow_succ]
        omega
      simp only [readUvarintLoop, List.cons_append, List.nil_append]
      rw [if_pos hx0, if_neg hno, lor_shift x hacc]
      have hlt : acc + x * 2 ^ s < 2 ^ 64 := by
        have hs63 : s ≤ 63 := by omega
        rcases Nat.eq_zero_or_pos x with rfl | hxpos
        · have h1 : (2 : Nat) ^ s ≤ 2 ^ 63 := Nat.pow_le_pow_right (by norm_num) hs63
          have h2 : (2 : Nat) ^ 63 < 2 ^ 64 := by norm_num
          omega
        · have hsplit : (2 : Nat) ^ 64 = 2 ^ (64 - s) * 2 ^ s := by
            rw [← pow_add]
            congr 1
            omega
          have hxlt : x < 2 ^ (64 - s) := by
            by_contra hge
            push_neg at hge
            have := Nat.mul_le_mul_right (2 ^ s) hge
            omega
          have h1 : (x + 1) * 2 ^ s ≤ 2 ^ (64 - s) * 2 ^ s :=
            Nat.mul_le_mul_right _ (by omega)
          have h2 : (x + 1) * 2 ^ s = x * 2 ^ s + 2 ^ s := by ring
          omega
      rw [Nat.mod_eq_of_lt hlt]
    · rw [putUvarint, dif_neg hx0]
      simp only [List.cons_append, readUvarintLoop]
      rw [byteOr x]
      have hcond : ¬(x % 128 + 128 < 0x80) := by omega
      rw [if_neg hcond]
      have hmod : (x % 128 + 128) % 0x80 = x % 128 := by omega
      rw [hmod, lor_shift (x % 128) hacc]
      have hf1 : 1 ≤ f := by
        by_contra h0
        push_neg at h0
        have hf0 : f = 0 := by omega
        subst hf0
        have hs63 : s = 63 := by omega
        subst hs63
        have h1 : 128 * 2 ^ 63 ≤ x * 2 ^ 63 := Nat.mul_le_mul_right _ (by omega)
        have h2 : (2 : Nat) ^ 64 < 128 * 2 ^ 63 := by norm_num [pow_succ]
        omega
      have h128 : x % 128 < 128 := Nat.mod_lt x (by norm_num)
      have hpow : (2 : Nat) ^ (s + 7) = 128 * 2 ^ s := by
        rw [pow_add]
        ring
      have haccb : acc + x % 128 * 2 ^ s < 2 ^ (s + 7) := by
        have h1 : x % 128 * 2 ^ s ≤ 127 * 2 ^ s := Nat.mul_le_mul_right _ (by omega)
        omega
      have hacc64 : acc + x % 128 * 2 ^ s < 2 ^ 64 := by
        have hs7 : s + 7 ≤ 63 := by omega
        have h1 : (2 : Nat) ^ (s + 7) ≤ 2 ^ 63 := Nat.pow_le_pow_right (by norm_num) hs7
        have h2 : (2 : Nat) ^ 63 < 2 ^ 64 := by norm_num
        omega
      rw [Nat.mod_eq_of_lt hacc64]
      have hdivx : x / 128 * 2 ^ (s + 7) < 2 ^ 64 := by
        have h1 : x / 128 * 128 ≤ x := Nat.div_mul_le_self x 128
        have h2 : x / 128 * 2 ^ (s + 7) = x / 128 * 128 * 2 ^ s := by
          rw [hpow]
          ring
        have h3 : x / 128 * 128 * 2 ^ s ≤ x * 2 ^ s := Nat.mul_le_mul_right _ h1
        omega
      have hrec := ih (x / 128) (Nat.div_lt_self (by omega) (by norm_num)) f
        (acc + x % 128 * 2 ^ s) (s + 7) rest hf1 (by omega) (by omega) haccb hdivx
      rw [hrec]
      have harith : acc + x % 128 * 2 ^ s + x / 128 * 2 ^ (s + 7) = acc + x * 2 ^ s := by
        have h2 : x % 128 * 2 ^ s + x / 128 * 2 ^ (s + 7) = (x % 128 + 128 * (x / 128)) * 2 ^ s := by
          rw [hpow]
          ring
        rw [Nat.add_assoc, h2, Nat.mod_add_div]
      rw [harith]

/-- PutUvarint then ReadUvarint round-trips any u64 value and leaves the rest
of the stream untouched. -/
lemma readUvarint_putUvarint (x : Nat) (rest : List Nat) (hx : x < 2 ^ 64) :
    readUvarint (putUvarint x ++ rest) = some (x, rest) := by
  have h := readUvarintLoop_putUvarint x 10 0 0 rest (by norm_num) (by norm_num)
    (by norm_num) (by norm_num) (by simpa using hx)
  simpa [readUvarint] using h

/-- C1: Frame round-trip: for every byte buffer b (of u64-representable
length), calling recvFrame on a stream immediately after sendFrame wrote b
to it yields exactly b and leaves the rest of the stream untouched; an empty
buffer round-trips to an empty buffer, with only the varint 0 on the wire. -/
theorem frame_roundtrip (b rest : List Nat) (hlen : b.length < 2 ^ 64) :
    recvFrame (sendFrame b ++ rest) = some (b, rest) ∧ sendFrame [] = [0] := by
  have hempty : sendFrame ([] : List Nat) = [0] := by simp [sendFrame, putUvarint]
  refine ⟨?_, hempty⟩
  by_cases hb : b.length = 0
  · have hbe : b = [] := List.length_eq_zero.mp hb
    subst hbe
    rw [hempty]
    have h0 : readUvarint (0 :: rest) = some (0, rest) := by
      have := readUvarint_putUvarint 0 rest (by norm_num)
      simpa [putUvarint] using this
    simp [recvFrame, h0]
  · rw [sendFrame, if_neg hb, List.append_assoc]
    have hu := readUvarint_putUvarint b.length (b ++ rest) hlen
    simp [recvFrame, hu, hb, readStream, List.take_left, List.drop_left]

/-- Witness for frame_roundtrip at b = [7, 8], rest = [9]. -/
theorem frame_roundtrip_witness :
    ([7, 8] : List Nat).length < 2 ^ 64 ∧
      (recvFrame (sendFrame [7, 8] ++ [9]) = some ([7, 8], [9]) ∧
        sendFrame [] = [0]) :=
  ⟨by norm_num, frame_roundtrip [7, 8] [9] (by norm_num)⟩

/-- Looking up the key of a fresh insert yields the inserted value. -/
lemma mapLookup_insert {α : Type} (m : List (Nat × α)) (k : Nat) (v : α) :
    mapLookup (mapInsert m k v) k = some v := by
  simp [mapLookup, mapInsert, List.find?]

/-- The identity compressor (tag 0, the raw compressor of the spec). -/
def rawComp : Compressor := ⟨fun b => some b, fun b => some b⟩

/-- A registry holding only the raw compressor at tag 0, used to instantiate
theorems with hypotheses at concrete inputs. -/
def regRaw : Registry := fun t => if t = 0 then some rawComp else none

/-- The identity serializer on byte strings, used for concrete instances. -/
def idSer : Serializer (List Nat) := ⟨fun v => some v, fun d => some d⟩

/-- C7: the partial-I/O claim about the framing helpers fails on this code.
The write loop of codec/io.go returns err whenever err is not a net.Error,
and a nil error is not a net.Error: after a first w.Write call that accepts
only 2 of 4 bytes and returns err = nil, the helper reports success with the
buffer unwritten (first conjunct). It also retries on every net.Error, even
a persistent one, rather than only on transient conditions (second
conjunct: the loop is still running when the script of two zero-progress
net.Error results ends). The read loop does fill its buffer across partial
reads with nil errors (third conjunct). -/
theorem write_read_loop_quirk :
    writeGo 4 0 [(2, GoErr.nil)] = some (GoErr.nil, 0) ∧
      writeGo 4 0 [(0, GoErr.net), (0, GoErr.net)] = none ∧
      readGo 4 0 [(2, GoErr.nil), (2, GoErr.nil)] = some (GoErr.nil, 4) := by
  decide

/-- C10: a body read with a nil target consumes exactly the length declared
in the current header on either codec (zero bytes when that length is 0),
performs no validation, and succeeds whenever the stream supplies that many
bytes. -/
theorem nil_target_discard {Val : Type} (reg : Registry) (S : Serializer Val)
    (c : ClientState) (s : ServerState) (st1 st2 : List Nat)
    (h1 : c.response.ResponseLen ≤ st1.length)
    (h2 : s.request.RequestLen ≤ st2.length) :
    clientCodec.ReadResponseBody reg S c false st1 =
        (.ok none, st1.drop c.response.ResponseLen) ∧
      serverCodec.ReadRequestBody reg S s false st2 =
        (.ok none, st2.drop s.request.RequestLen) := by
  constructor
  · rw [clientCodec.ReadResponseBody]
    by_cases h0 : c.response.ResponseLen = 0
    · simp [h0]
    · simp [h0, readStream, h1]
  · rw [serverCodec.ReadRequestBody]
    by_cases h0 : s.request.RequestLen = 0
    · simp [h0]
    · simp [h0, readStream, h2]

/-- Client state for the nil-target witness: the last decoded response header
declares a 2-byte body. -/
def c10c : ClientState :=
  { compressor := 0, pending := [],
    response := { ID := 1, Error := [], ResponseLen := 2, CompressType := 0, Checksum := 9 } }

/-- Server state for the nil-target witness: the last decoded request header
declares a 1-byte body. -/
def c10s : ServerState :=
  { seq := 0, pending := [],
    request := { ID := 1, Method := [], RequestLen := 1, CompressType := 7, Checksum := 3 } }

/-- Witness for nil_target_discard: both codecs discard the declared lengths
even though the headers carry bogus checksums and compress types. -/
theorem nil_target_discard_witness :
    (c10c.response.ResponseLen ≤ ([5, 6, 7] : List Nat).length ∧
        c10s.request.RequestLen ≤ ([9] : List Nat).length) ∧
      (clientCodec.ReadResponseBody regRaw idSer c10c false [5, 6, 7] = (.ok none, [7]) ∧
        serverCodec.ReadRequestBody regRaw idSer c10s false [9] = (.ok none, [])) := by
  refine ⟨⟨by decide, by decide⟩, ?_⟩
  simpa using nil_target_discard regRaw idSer c10c c10s [5, 6, 7] [9] (by decide) (by decide)

/-- C8: when the client reads a response body into a non-nil target, the
checksum check passes, and the header compress type differs from the
configured compressor, the call returns CompressorTypeMismatch having
consumed exactly ResponseLen body bytes, so the stream stays frame-aligned. -/
theorem mismatch_consumes_body {Val : Type} (reg : Registry) (S : Serializer Val)
    (c : ClientState) (st : List Nat)
    (hlen : c.response.ResponseLen ≤ st.length)
    (hck : c.response.Checksum = 0 ∨ crc32 (st.take c.response.ResponseLen) = c.response.Checksum)
    (hmm : c.response.CompressType ≠ c.compressor) :
    clientCodec.ReadResponseBody reg S c true st =
      (.error .CompressorTypeMismatch, st.drop c.response.ResponseLen) := by
  have hc1 : ¬(c.response.Checksum ≠ 0 ∧
      crc32 (st.take c.response.ResponseLen) ≠ c.response.Checksum) := by tauto
  rw [clientCodec.ReadResponseBody]
  simp [readStream, hlen, hc1, hmm]

/-- Client state for the mismatch witness: configured gzip-style tag 1, the
response header carries snappy-style tag 2 and a zero checksum. -/
def c8c : ClientState :=
  { compressor := 1, pending := [],
    response := { ID := 4, Error := [], ResponseLen := 2, CompressType := 2, Checksum := 0 } }

/-- Witness for mismatch_consumes_body: the two body bytes are consumed and
the byte after them is what remains. -/
theorem mismatch_consumes_body_witness :
    (c8c.response.ResponseLen ≤ ([10, 11, 12] : List Nat).length ∧
        c8c.response.Checksum = 0 ∧
        c8c.response.CompressType ≠ c8c.compressor) ∧
      clientCodec.ReadResponseBody regRaw idSer c8c true [10, 11, 12] =
        (.error .CompressorTypeMismatch, [12]) := by
  refine ⟨⟨by decide, by decide, by decide⟩, ?_⟩
  simpa using mismatch_consumes_body regRaw idSer c8c [10, 11, 12]
    (by decide) (Or.inl (by decide)) (by decide)

/-- C9: when the server reads a request body into a non-nil target, the
checksum check passes, and the header compress type is not in the registry,
the call returns NotFoundCompressor having consumed exactly the RequestLen
bytes the header declared and no more. -/
theorem notfound_consumes_body {Val : Type} (reg : Registry) (S : Serializer Val)
    (s : ServerState) (st : List Nat)
    (hlen : s.request.RequestLen ≤ st.length)
    (hck : s.request.Checksum = 0 ∨ crc32 (st.take s.request.RequestLen) = s.request.Checksum)
    (hreg : reg s.request.CompressType = none) :
    serverCodec.ReadRequestBody reg S s true st =
      (.error .NotFoundCompressor, st.drop s.request.RequestLen) := by
  have hc1 : ¬(s.request.Checksum ≠ 0 ∧
      crc32 (st.take s.request.RequestLen) ≠ s.request.Checksum) := by tauto
  rw [serverCodec.ReadRequestBody]
  simp [readStream, hlen, hc1, hreg]

/-- Server state for the unknown-compressor witness: the request header
carries the unregistered tag 999 and a zero checksum. -/
def c9s : ServerState :=
  { seq := 1, pending := [],
    request := { ID := 2, Method := [65], RequestLen := 2, CompressType := 999, Checksum := 0 } }

/-- Witness for notfound_consumes_body. -/
theorem notfound_consumes_body_witness :
    (c9s.request.RequestLen ≤ ([1, 2, 3] : List Nat).length ∧
        c9s.request.Checksum = 0 ∧
        regRaw c9s.request.CompressType = none) ∧
      serverCodec.ReadRequestBody regRaw idSer c9s true [1, 2, 3] =
        (.error .NotFoundCompressor, [3]) := by
  refine ⟨⟨by decide, by decide, rfl⟩, ?_⟩
  simpa using notfound_consumes_body regRaw idSer c9s [1, 2, 3]
    (by decide) (Or.inl (by decide)) rfl

/-- C4: with a non-nil target and enough bytes on the stream, the client's
body read returns UnexpectedChecksum exactly when the header checksum is
nonzero and differs from CRC32-IEEE recomputed over the received compressed
body; a zero checksum disables verification, so no checksum error is
possible regardless of body contents. -/
theorem checksum_iff {Val : Type} (reg : Registry) (S : Serializer Val)
    (c : ClientState) (st : List Nat)
    (hlen : c.response.ResponseLen ≤ st.length) :
    (clientCodec.ReadResponseBody reg S c true st).1 = .error .UnexpectedChecksum ↔
      (c.response.Checksum ≠ 0 ∧
        crc32 (st.take c.response.ResponseLen) ≠ c.response.Checksum) := by
  rw [clientCodec.ReadResponseBody]
  by_cases h : c.response.Checksum ≠ 0 ∧
      crc32 (st.take c.response.ResponseLen) ≠ c.response.Checksum
  · simp [readStream, hlen, h]
  · simp only [readStream, if_pos hlen, Bool.true_eq_false, if_false, if_neg h, iff_false,
      h, iff_false]
    by_cases hmm2 : c.response.CompressType ≠ c.compressor
    · simp [hmm2]
    · rw [if_neg hmm2]
      cases hreg : reg c.response.CompressType with
      | none => simp
      | some comp =>
        cases hz : comp.Unzip (st.take c.response.ResponseLen) with
        | none => simp [hz]
        | some resp =>
          cases hu : S.Unmarshal resp with
          | none => simp [hz, hu]
          | some v => simp [hz, hu]

/-- Client state for the checksum witness: the response header declares a
2-byte body with nonzero checksum 5, which does not match the body. -/
def c4c : ClientState :=
  { compressor := 0, pending := [],
    response := { ID := 3, Error := [], ResponseLen := 2, CompressType := 0, Checksum := 5 } }

/-- Witness for checksum_iff: with body bytes [1, 2] the recomputed CRC
differs from 5 and the read indeed returns UnexpectedChecksum. -/
theorem checksum_iff_witness :
    (c4c.response.ResponseLen ≤ ([1, 2, 3] : List Nat).length) ∧
      ((clientCodec.ReadResponseBody regRaw idSer c4c true [1, 2, 3]).1 =
          .error .UnexpectedChecksum ↔
        (c4c.response.Checksum ≠ 0 ∧
          crc32 (([1, 2, 3] : List Nat).take c4c.response.ResponseLen) ≠ c4c.response.Checksum)) :=
  ⟨by decide, checksum_iff regRaw idSer c4c [1, 2, 3] (by decide)⟩

/-- C5: when the configured compressor tag is not registered, WriteRequest
fails with NotFoundCompressor before any I/O: no bytes are put on the wire,
and the seq-to-method entry inserted at the start of the call remains in the
pending map. -/
theorem writeRequest_notfound {Val : Type} (reg : Registry) (S : Serializer Val)
    (c : ClientState) (seq : Nat) (method : List Nat) (param : Val)
    (hreg : reg c.compressor = none) :
    (clientCodec.WriteRequest reg S c seq method param).2.2 = some .NotFoundCompressor ∧
      (clientCodec.WriteRequest reg S c seq method param).2.1 = [] ∧
      mapLookup (clientCodec.WriteRequest reg S c seq method param).1.pending seq =
        some method := by
  rw [clientCodec.WriteRequest]
  simp [hreg, mapLookup_insert]

/-- Client state for the unregistered-compressor witness: configured with
tag 999, which regRaw does not know. -/
def c5c : ClientState :=
  { compressor := 999, pending := [(8, [66])],
    response := { ID := 0, Error := [], ResponseLen := 0, CompressType := 0, Checksum := 0 } }

/-- Witness for writeRequest_notfound. -/
theorem writeRequest_notfound_witness :
    regRaw c5c.compressor = none ∧
      ((clientCodec.WriteRequest regRaw idSer c5c 3 [77] [1]).2.2 =
          some .NotFoundCompressor ∧
        (clientCodec.WriteRequest regRaw idSer c5c 3 [77] [1]).2.1 = [] ∧
        mapLookup (clientCodec.WriteRequest regRaw idSer c5c 3 [77] [1]).1.pending 3 =
          some [77]) :=
  ⟨rfl, writeRequest_notfound regRaw idSer c5c 3 [77] [1] rfl⟩

/-- C2: every successful WriteResponse whose seq is in the pending map
writes a header frame followed by the compressed body cbody, where the
header has id equal to the request id remembered for that seq,
response_len equal to the byte length of cbody (through the u32 cast, exact
whenever the length fits in 32 bits), checksum equal to CRC32-IEEE of
cbody, and compress_type equal to the remembered compress type; and when
the response error is non-empty the value is discarded, so the body put on
the wire is the compression of the empty body. -/
theorem writeResponse_header {Val : Type} (reg : Registry) (S : Serializer Val)
    (s : ServerState) (respSeq : Nat) (respError : List Nat) (param : Option Val)
    (ctx : ReqCtx) (hp : mapLookup s.pending respSeq = some ctx)
    (hok : (serverCodec.WriteResponse reg S s respSeq respError param).2.2 = none) :
    ∃ cbody h,
      (serverCodec.WriteResponse reg S s respSeq respError param).2.1 =
          sendFrame (ResponseHeader.Marshal h) ++ cbody ∧
        h.ID = ctx.requestId ∧ h.Error = respError ∧
        h.ResponseLen = cbody.length % 2 ^ 32 ∧
        (cbody.length < 2 ^ 32 → h.ResponseLen = cbody.length) ∧
        h.CompressType = ctx.compressType ∧
        h.Checksum = crc32 cbody ∧
        (respError ≠ [] →
          ∃ comp, reg ctx.compressType = some comp ∧ comp.Zip [] = some cbody) := by
  simp only [serverCodec.WriteResponse, hp] at hok ⊢
  cases hreg : reg ctx.compressType with
  | none =>
    simp only [hreg] at hok
    exact Option.noConfusion hok
  | some comp =>
    simp only [hreg] at hok ⊢
    cases hb : (match (if respError ≠ [] then none else param) with
        | none => some [] | some v => S.Marshal v) with
    | none =>
      simp only [hb] at hok
      exact Option.noConfusion hok
    | some respBody =>
      simp only [hb] at hok ⊢
      cases hz : comp.Zip respBody with
      | none =>
        simp only [hz] at hok
        exact Option.noConfusion hok
      | some cbody =>
        simp only [hz] at hok ⊢
        refine ⟨cbody,
          ⟨ctx.requestId, respError, cbody.length % 2 ^ 32, ctx.compressType, crc32 cbody⟩,
          rfl, rfl, rfl, rfl, fun hlt => Nat.mod_eq_of_lt hlt, rfl, rfl, ?_⟩
        intro hne
        refine ⟨comp, rfl, ?_⟩
        rw [if_pos hne] at hb
        simp only [Option.some.injEq] at hb
        rw [← hb] at hz
        exact hz

/-- Server state for the WriteResponse witness: local seq 1 is pending with
remembered request id 42 and compress type 0. -/
def c2s : ServerState :=
  { seq := 1, pending := [(1, ⟨42, 0⟩)],
    request := { ID := 0, Method := [], RequestLen := 0, CompressType := 0, Checksum := 0 } }

/-- Witness for writeResponse_header: a response with non-empty error [69]
for pending seq 1. -/
theorem writeResponse_header_witness :
    (mapLookup c2s.pending 1 = some ⟨42, 0⟩ ∧
        (serverCodec.WriteResponse regRaw idSer c2s 1 [69] (some [1, 2, 3])).2.2 = none) ∧
      (∃ cbody h,
        (serverCodec.WriteResponse regRaw idSer c2s 1 [69] (some [1, 2, 3])).2.1 =
            sendFrame (ResponseHeader.Marshal h) ++ cbody ∧
          h.ID = 42 ∧ h.Error = [69] ∧
          h.ResponseLen = cbody.length % 2 ^ 32 ∧
          (cbody.length < 2 ^ 32 → h.ResponseLen = cbody.length) ∧
          h.CompressType = 0 ∧
          h.Checksum = crc32 cbody ∧
          ([69] ≠ ([] : List Nat) →
            ∃ comp, regRaw 0 = some comp ∧ comp.Zip [] = some cbody)) :=
  ⟨⟨by decide, rfl⟩,
    writeResponse_header regRaw idSer c2s 1 [69] (some [1, 2, 3]) ⟨42, 0⟩ (by decide) rfl⟩

/-- Client state for the unknown-id scenario: the pending map is empty. -/
def c6state : ClientState :=
  { compressor := 0, pending := [],
    response := { ID := 0, Error := [], ResponseLen := 0, CompressType := 0, Checksum := 0 } }

/-- A wire stream holding one frame: the 22-byte marshalled response header
with id 7, empty error, response_len 0, compress_type 0, checksum 0. -/
def c6stream : List Nat :=
  [22, 7, 0, 0, 0, 0, 0, 0, 0, 0, 0, 0, 0, 0, 0, 0, 0, 0, 0, 0, 0, 0, 0]

/-- C6 counterexample: id 7 is not in the pending map, yet
ReadResponseHeader succeeds instead of reporting a protocol error; the
service method is the Go zero value, the empty string. -/
theorem readResponseHeader_unknown_succeeds :
    mapLookup c6state.pending 7 = none ∧
      clientCodec.ReadResponseHeader c6state c6stream =
        .ok ({ Seq := 7, Error := [], ServiceMethod := [] },
          { compressor := 0, pending := [],
            response := { ID := 7, Error := [], ResponseLen := 0, CompressType := 0,
                          Checksum := 0 } }, []) :=
  ⟨rfl, rfl⟩

/-- C6 amended: when the decoded response header's id is not a key of the
pending map, ReadResponseHeader does not report an error; it succeeds,
delivering seq = id, the header's error, and an empty service method (the
Go map zero value), and deletes nothing that was pending. -/
theorem readResponseHeader_unknown_id (c : ClientState) (stream data rest : List Nat)
    (rh : ResponseHeader)
    (h1 : recvFrame stream = some (data, rest))
    (h2 : ResponseHeader.Unmarshal data = some rh)
    (h3 : mapLookup c.pending rh.ID = none) :
    clientCodec.ReadResponseHeader c stream =
      .ok ({ Seq := rh.ID, Error := rh.Error, ServiceMethod := [] },
        { c with response := rh, pending := mapErase c.pending rh.ID }, rest) := by
  rw [clientCodec.ReadResponseHeader]
  simp [h1, h2, h3]

/-- Witness for readResponseHeader_unknown_id at the concrete stream. -/
theorem readResponseHeader_unknown_id_witness :
    (recvFrame c6stream = some (List.drop 1 c6stream, []) ∧
        ResponseHeader.Unmarshal (List.drop 1 c6stream) =
          some { ID := 7, Error := [], ResponseLen := 0, CompressType := 0, Checksum := 0 } ∧
        mapLookup c6state.pending 7 = none) ∧
      clientCodec.ReadResponseHeader c6state c6stream =
        .ok ({ Seq := 7, Error := [], ServiceMethod := [] },
          { c6state with
            response := { ID := 7, Error := [], ResponseLen := 0, CompressType := 0,
                          Checksum := 0 },
            pending := mapErase c6state.pending 7 }, []) :=
  ⟨⟨rfl, rfl, rfl⟩,
    readResponseHeader_unknown_id c6state c6stream (List.drop 1 c6stream) []
      { ID := 7, Error := [], ResponseLen := 0, CompressType := 0, Checksum := 0 }
      rfl rfl rfl⟩

/-- Each successful ReadRequestHeader assigns the incremented counter (as a
u64) both to the returned request and to the new state. -/
lemma readRequestHeader_seq {s : ServerState} {stream : List Nat}
    {req : RpcRequest} {s2 : ServerState} {rest : List Nat}
    (h : serverCodec.ReadRequestHeader s stream = .ok (req, s2, rest)) :
    req.Seq = (s.seq + 1) % 2 ^ 64 ∧ s2.seq = (s.seq + 1) % 2 ^ 64 := by
  rw [serverCodec.ReadRequestHeader] at h
  cases h1 : recvFrame stream with
  | none =>
    simp only [h1] at h
    exact Except.noConfusion h
  | some p =>
    obtain ⟨data, rest2⟩ := p
    simp only [h1] at h
    cases h2 : RequestHeader.Unmarshal data with
    | none =>
      simp only [h2] at h
      exact Except.noConfusion h
    | some rh =>
      simp only [h2, Except.ok.injEq, Prod.mk.injEq] at h
      obtain ⟨hreq, hs2, _⟩ := h
      constructor
      · rw [← hreq]
      · rw [← hs2]

/-- Along any successful run of N header reads, the collected local seqs are
the consecutive block starting right after the initial counter value. -/
lemma runHeaders_seqs : ∀ (N : Nat) (s : ServerState) (stream : List Nat)
    (out : List Nat × ServerState × List Nat),
    runHeaders s stream N = some out → s.seq + N < 2 ^ 64 →
    out.1 = List.range' (s.seq + 1) N := by
  intro N
  induction N with
  | zero =>
    intro s stream out h _
    rw [runHeaders] at h
    simp only [Option.some.injEq] at h
    rw [← h]
    rfl
  | succ n ihn =>
    intro s stream out h hN
    rw [runHeaders] at h
    cases h1 : serverCodec.ReadRequestHeader s stream with
    | error e =>
      simp only [h1] at h
      exact Option.noConfusion h
    | ok t =>
      obtain ⟨req, s2, rest⟩ := t
      simp only [h1] at h
      cases h2 : runHeaders s2 rest n with
      | none =>
        simp only [h2] at h
        exact Option.noConfusion h
      | some out2 =>
        obtain ⟨seqs, s3, rest2⟩ := out2
        simp only [h2, Option.some.injEq] at h
        have hseq := readRequestHeader_seq h1
        have hmod : (s.seq + 1) % 2 ^ 64 = s.seq + 1 := Nat.mod_eq_of_lt (by omega)
        have hrec : seqs = List.range' (s2.seq + 1) n :=
          ihn s2 rest (seqs, s3, rest2) h2 (by rw [hseq.2, hmod]; omega)
        rw [← h]
        show req.Seq :: seqs = List.range' (s.seq + 1) (n + 1)
        rw [List.range'_succ, hseq.1, hmod, hrec, hseq.2, hmod]

/-- C3: across any run of N successful calls to ReadRequestHeader on one
connection starting from a fresh codec (seq counter 0), the assigned
local seq values are the strictly increasing sequence 1, 2, ..., N; the
counter is incremented before assignment, and (for N below 2 ^ 64, the
range of the u64 counter) each local seq is distinct and identifies its
request uniquely. -/
theorem serverSeq_monotonic (s : ServerState) (stream : List Nat) (N : Nat)
    (h0 : s.seq = 0) (hN : N < 2 ^ 64)
    (hsome : (runHeaders s stream N).isSome = true) :
    (runHeaders s stream N).map Prod.fst = some (List.range' 1 N) := by
  obtain ⟨out, hout⟩ := Option.isSome_iff_exists.mp hsome
  have h := runHeaders_seqs N s stream out hout (by omega)
  rw [hout]
  simp [h, h0]

/-- A fresh server codec state. -/
def c3init : ServerState :=
  { seq := 0, pending := [],
    request := { ID := 0, Method := [], RequestLen := 0, CompressType := 0, Checksum := 0 } }

/-- One frame holding the 23-byte marshalled request header with id 5,
method [65], request_len 0, compress_type 0, checksum 0. -/
def c3frame : List Nat :=
  [23, 5, 0, 0, 0, 0, 0, 0, 0, 1, 0, 0, 0, 65, 0, 0, 0, 0, 0, 0, 0, 0, 0, 0]

/-- Witness for serverSeq_monotonic: two identical request headers on the
wire are assigned local seqs [1, 2]. -/
theorem serverSeq_monotonic_witness :
    (c3init.seq = 0 ∧ 2 < 2 ^ 64 ∧
        (runHeaders c3init (c3frame ++ c3frame) 2).isSome = true) ∧
      (runHeaders c3init (c3frame ++ c3frame) 2).map Prod.fst =
        some (List.range' 1 2) :=
  ⟨⟨rfl, by norm_num, by decide⟩,
    serverSeq_monotonic c3init (c3frame ++ c3frame) 2 rfl (by norm_num) (by decide)⟩

